import Mathlib

/- Shallow embedding of the real-time call-engine core of the repository
   (server source, src/unnamed/part_000): the mu-law audio codec
   (muLawTo16BitPCM, linear16ToMuLaw), the frame pacer (sendMedia), the
   outcome classifier (analyzeOutcome, extractSchedulingDetails) and the
   per-session websocket handlers (the STT final-transcript handler, the
   start-event greeting task and the stop-event handler).  External
   collaborators (the Gemini inference call, Google TTS, the websocket
   transport) enter as explicit parameters: Except-valued results and a
   per-frame readiness function.  Strings are processed as lists of
   characters; all inputs of interest are ASCII, where Lean's
   Char.toLower/Char.toUpper agree with JavaScript's. -/

namespace CallEngine

/-- Apostrophe character, used to spell the string literals of the source. -/
def apos : Char := Char.ofNat 39

/-- Apostrophe as a one-character string. -/
def aposS : String := String.singleton apos

/-- JavaScript whitespace (the ASCII part of regex \s and of String.trim). -/
def jsIsSpace (c : Char) : Bool :=
  c = ' ' || c = Char.ofNat 9 || c = Char.ofNat 10 || c = Char.ofNat 13 ||
  c = Char.ofNat 11 || c = Char.ofNat 12

/-- JavaScript regex word character \w = [A-Za-z0-9_], used by \b boundaries. -/
def isWordChar (c : Char) : Bool :=
  c.isAlpha || c.isDigit || c = '_'

/-- JavaScript String.prototype.trim on ASCII input. -/
def jsTrim (s : String) : String :=
  String.mk (((s.toList.dropWhile jsIsSpace).reverse.dropWhile jsIsSpace).reverse)

/-- JavaScript String.prototype.toLowerCase on ASCII input. -/
def toLowerStr (s : String) : String :=
  String.mk (s.toList.map Char.toLower)

/-- Case-sensitive: pat begins s. -/
def beginsWith : List Char → List Char → Bool
  | [], _ => true
  | _ :: _, [] => false
  | p :: ps, c :: cs => p = c && beginsWith ps cs

/-- JavaScript String.prototype.includes (case-sensitive substring search). -/
def hasSub (pat : List Char) : List Char → Bool
  | [] => beginsWith pat []
  | c :: cs => beginsWith pat (c :: cs) || hasSub pat cs

/-- Case-insensitive substring test: pat (already lower-case) occurs in s. -/
def hasSubCI (pat : List Char) (s : List Char) : Bool :=
  hasSub pat (s.map Char.toLower)

/-- Case-insensitively take pat off the front of s, returning the matched
original-case characters and the rest; pat is given lower-case. -/
def takeCI : List Char → List Char → Option (List Char × List Char)
  | [], s => some ([], s)
  | _ :: _, [] => none
  | p :: ps, c :: cs =>
    if Char.toLower c = p then
      match takeCI ps cs with
      | some (m, r) => some (c :: m, r)
      | none => none
    else none

/-- Regex \b after a just-matched character: a word/non-word transition
between the last matched character and what follows (end of string counts
as non-word). -/
def boundaryAfterChars (lastChar : Char) (rest : List Char) : Bool :=
  match rest with
  | [] => isWordChar lastChar
  | c :: _ => isWordChar lastChar != isWordChar c

/-- Try the alternatives of a \b(alt1|...|altN)\b group, in order, at the
head of s (alternatives are lower-case words; the \b before the match is
checked by the caller). -/
def wordAltAt (alts : List (List Char)) (s : List Char) : Option (List Char) :=
  alts.findSome? fun alt =>
    match takeCI alt s with
    | some (m, rest) =>
      match m.getLast? with
      | some lc => if boundaryAfterChars lc rest then some m else none
      | none => none
    | none => none

/-- Leftmost match of \b(alt1|...|altN)\b, scanning with the previous
character (none at the start of the string); returns the matched
original-case characters, like the capture group of String.match. -/
def findWordAlt (alts : List (List Char)) : Option Char → List Char → Option (List Char)
  | _, [] => none
  | prev, c :: cs =>
    let bOk : Bool := match prev with
      | none => true
      | some p => !isWordChar p
    match (if bOk then wordAltAt alts (c :: cs) else none) with
    | some m => some m
    | none => findWordAlt alts (some c) cs

/-- The weekday alternatives of the scheduling regexes. -/
def weekdays : List (List Char) :=
  [("monday").toList, ("tuesday").toList, ("wednesday").toList, ("thursday").toList,
   ("friday").toList, ("saturday").toList, ("sunday").toList]

/-- The day-part alternatives of the third scheduling regex. -/
def dayparts : List (List Char) :=
  [("morning").toList, ("afternoon").toList, ("evening").toList]

/-- The meridiem alternatives (am|pm|a\.m\.|p\.m\.), in regex order. -/
def meridiems : List (List Char) :=
  [("am").toList, ("pm").toList, ("a.m.").toList, ("p.m.").toList]

/-- Candidates for the group (\d{1,2}) — with allowColon, (\d{1,2}(?::\d{2})?) —
at the head of s, in the backtracking order of the regex engine: two digits
before one, and the optional colon part taken before it is dropped.  Each
candidate is (captured characters, rest of the string). -/
def g1Cands (allowColon : Bool) (s : List Char) : List (List Char × List Char) :=
  match s with
  | [] => []
  | c1 :: rest1 =>
    if c1.isDigit then
      let ext : List Char × List Char → List (List Char × List Char) := fun p =>
        if allowColon then
          match p.2 with
          | c :: d1 :: d2 :: r2 =>
            if c = ':' && d1.isDigit && d2.isDigit then
              [(p.1 ++ [c, d1, d2], r2), p]
            else [p]
          | _ => [p]
        else [p]
      let twoDigit : List (List Char × List Char) :=
        match rest1 with
        | c2 :: rest2 => if c2.isDigit then [([c1, c2], rest2)] else []
        | [] => []
      (twoDigit ++ [([c1], rest1)]).flatMap ext
    else []

/-- Remainders of s after consuming \s*, greedily longest consumption first
(the regex backtracking order). -/
def spaceSplits (s : List Char) : List (List Char) :=
  match s with
  | [] => [[]]
  | c :: cs => if jsIsSpace c then spaceSplits cs ++ [c :: cs] else [c :: cs]

/-- Match the time pattern \b(\d{1,2}[(?::\d{2})? when allowColon])\s*(am|pm|a\.m\.|p\.m\.)\b
at the head of s (the leading \b is checked by the caller); returns the two
capture groups in original case. -/
def timeMatchAt (allowColon : Bool) (s : List Char) : Option (List Char × List Char) :=
  (g1Cands allowColon s).findSome? fun g1p =>
    (spaceSplits g1p.2).findSome? fun r2 =>
      meridiems.findSome? fun mer =>
        match takeCI mer r2 with
        | some (m, rest) =>
          match m.getLast? with
          | some lc => if boundaryAfterChars lc rest then some (g1p.1, m) else none
          | none => none
        | none => none

/-- Leftmost match of the time pattern, scanning with the previous character. -/
def findTime (allowColon : Bool) : Option Char → List Char → Option (List Char × List Char)
  | _, [] => none
  | prev, c :: cs =>
    let bOk : Bool := match prev with
      | none => true
      | some p => !isWordChar p
    match (if bOk then timeMatchAt allowColon (c :: cs) else none) with
    | some r => some r
    | none => findTime allowColon (some c) cs

/-- JavaScript day.charAt(0).toUpperCase() + day.slice(1).toLowerCase(). -/
def capitalizeJS (s : List Char) : String :=
  match s with
  | [] => ""
  | c :: cs => String.mk (c.toUpper :: cs.map Char.toLower)

/-- JavaScript t.toUpperCase().replace(dot-regex, empty): upper-case and
drop every period. -/
def upperNoDots (s : List Char) : String :=
  String.mk ((s.map Char.toUpper).filter (fun c => c ≠ '.'))

/-- Outcome record of analyzeOutcome: JavaScript {type, details} where each
field is a string or null. -/
structure OutcomeR where
  type : Option String
  details : Option String
deriving DecidableEq, Repr

/-- extractSchedulingDetails(userTranscript, aiResponse) of the source:
combine the two texts, extract the first weekday and the first clock time,
and format the scheduling detail. -/
def extractSchedulingDetails (userTranscript aiResponse : String) : String :=
  let combined := (userTranscript ++ " " ++ aiResponse).toList
  let dayMatch := findWordAlt weekdays none combined
  let timeMatch := findTime true none combined
  match dayMatch, timeMatch with
  | some d, some tp => capitalizeJS d ++ " " ++ (String.mk tp.1 ++ " " ++ upperNoDots tp.2)
  | some d, none => capitalizeJS d
  | none, some tp => String.mk tp.1 ++ " " ++ upperNoDots tp.2
  | none, none => "Meeting scheduled"

/-- The confirmation-word alternatives of the fourth scheduling regex
(no word boundaries: plain case-insensitive substrings). -/
def confirmPhrases : List String :=
  ["scheduled", "booked", "confirmed", "set up", "looking forward"]

/-- The schedulePatterns loop of analyzeOutcome: some pattern matches
aiResponse or userTranscript (weekday, clock time without minutes,
day part, or a confirmation word). -/
def schedSignal (userTranscript aiResponse : String) : Bool :=
  let u := userTranscript.toList
  let a := aiResponse.toList
  ((findWordAlt weekdays none a).isSome || (findWordAlt weekdays none u).isSome) ||
  ((findTime false none a).isSome || (findTime false none u).isSome) ||
  ((findWordAlt dayparts none a).isSome || (findWordAlt dayparts none u).isSome) ||
  ((confirmPhrases.any fun p => hasSubCI p.toList a) ||
   (confirmPhrases.any fun p => hasSubCI p.toList u))

/-- The rejectionPatterns alternatives of analyzeOutcome, matched against the
lower-cased user transcript. -/
def rejectionPhrases : List String :=
  ["not interested", "no thanks", "don" ++ aposS ++ "t call", "remove me",
   "not a good time", "busy", "never call", "stop calling", "leave me alone"]

/-- analyzeOutcome(userTranscript, aiResponse) of the source.  The
schedulingDetails variable is null until a scheduling pattern matches, and
extractSchedulingDetails always returns a non-empty (truthy) string, so it
is modelled as an Option. -/
def analyzeOutcome (userTranscript aiResponse : String) : OutcomeR :=
  let userLower := toLowerStr userTranscript
  let aiLower := toLowerStr aiResponse
  if hasSub ("hangup").toList aiLower.toList then
    let schedulingDetails : Option String :=
      if schedSignal userTranscript aiResponse then
        some (extractSchedulingDetails userTranscript aiResponse)
      else none
    match schedulingDetails with
    | some d => ⟨some ("scheduled"), some d⟩
    | none =>
      if rejectionPhrases.any (fun p => hasSub p.toList userLower.toList) then
        ⟨some ("irrelevant"), some ("Lead declined")⟩
      else
        ⟨some ("hangup"), some ("Call ended")⟩
  else ⟨none, none⟩

/-- JavaScript (~x) & 0xFF: the low byte of the bitwise complement. -/
def jsNotByte (x : Nat) : Nat := 255 - x % 256

/-- The exponent-finding for-loop of linear16ToMuLaw: starting from the bit
0x4000 and exponent 7, walk down while the tested bit of sample is clear.
The loop body runs at most 15 times (bits 14 down to 0), so fuel 15 makes
the recursion structural without changing the result. -/
def findExponentLoop (sample : Nat) : Nat → Nat → Int → Int
  | 0, _, exponent => exponent
  | fuel + 1, exp, exponent =>
    if exp > 0 && sample &&& exp = 0 then
      findExponentLoop sample fuel (exp >>> 1) (exponent - 1)
    else exponent

/-- linear16ToMuLaw of the source, on one 16-bit signed sample (the source
iterates this over the little-endian byte pairs of the PCM buffer).  Sign,
clip to 32635, add bias 0x84, find the exponent segment, take the 4-bit
mantissa, and invert the combined byte. -/
def linear16ToMuLawSample (sample0 : Int) : Nat :=
  let sign : Nat := if sample0 < 0 then 0x80 else 0x00
  let mag : Int := if sample0 < 0 then -sample0 else sample0
  let magC : Int := if mag > 32635 then 32635 else mag
  let s : Nat := (magC + 0x84).toNat
  let exponent : Nat := (findExponentLoop s 15 0x4000 7).toNat
  let mantissa : Nat := (s >>> (exponent + 3)) &&& 0x0F
  jsNotByte (sign ||| (exponent <<< 4) ||| mantissa)

/-- muLawTo16BitPCM of the source, on one mu-law byte (the source iterates
this over the input buffer).  JavaScript inverts all 32 bits of the byte
and then masks pieces out, which on a byte value b reads the pieces of
255 - b; the linear value is computed by the source's formula
(2^(exponent+1) * (mantissa + 16) + 2^exponent - 1 - 0x84) * sign and
clamped to the 16-bit signed range. -/
def muLawTo16BitPCMSample (b : Nat) : Int :=
  let mu : Nat := 255 - b % 256
  let sign : Int := if mu &&& 0x80 ≠ 0 then -1 else 1
  let exponent : Nat := (mu >>> 4) &&& 0x07
  let mantissa : Nat := mu &&& 0x0F
  let sample : Int :=
    ((1 <<< (exponent + 1) : Nat) * (mantissa + 16) + (1 <<< exponent : Nat) - 1 - 0x84 : Int) * sign
  if sample > 32767 then 32767
  else if sample < -32768 then -32768
  else sample

/-- One outbound Twilio media message of sendMedia: the optional streamSid
field and the mu-law payload bytes of the frame (the source base64-encodes
the payload into JSON; the fields modelled are the ones the claims are
about). -/
structure MediaMsg where
  streamSid : Option String
  payload : List Nat
deriving DecidableEq, Repr

/-- The chunking of the sendMedia for-loop: slices of n+1 elements taken
from the front until the buffer is exhausted (the source uses
muLaw.slice(offset, offset + chunkSize) with chunkSize = 160 = 159 + 1). -/
def chunksGo (n : Nat) : Nat → List α → List (List α)
  | 0, _ => []
  | _ + 1, [] => []
  | fuel + 1, c :: cs => ((c :: cs).take (n + 1)) :: chunksGo n fuel ((c :: cs).drop (n + 1))

/-- The chunking loop with its fuel instantiated: each iteration consumes at
least one element, so l.length steps always suffice and the fuel never cuts
the loop short. -/
def chunks (n : Nat) (l : List α) : List (List α) := chunksGo n l.length l

/-- The per-frame send loop of sendMedia: before each frame the source
checks ws.readyState === 1 and breaks otherwise; ready i is that check
before frame number i. -/
def sendLoop (ready : Nat → Bool) : List (List Nat) → Nat → List (List Nat)
  | [], _ => []
  | f :: fs, i => if ready i then f :: sendLoop ready fs (i + 1) else []

/-- sendMedia(ws, pcmBuffer) of the source, as the list of media messages it
sends.  wsPresent is the truthiness of ws, ready the per-frame
ws.readyState === 1 check, sid the streamSid looked up from the session
(null when it was never captured), samples the 16-bit samples of
pcmBuffer (one per little-endian byte pair).  The guard returns
immediately when ws is falsy, the buffer is falsy, or its length is 0;
every send failure is caught inside the source function, so the model is
total. -/
def sendMedia (wsPresent : Bool) (ready : Nat → Bool) (sid : Option String)
    (pcm : Option (List Int)) : List MediaMsg :=
  match wsPresent, pcm with
  | false, _ => []
  | true, none => []
  | true, some samples =>
    if samples.length = 0 then []
    else
      let muLaw := samples.map linear16ToMuLawSample
      (sendLoop ready (chunks 159 muLaw) 0).map (fun f => ⟨sid, f⟩)

/-- The wall-clock arithmetic of the sendMedia loop: after frame k is sent
(taking latency k milliseconds of sink-call time), sentChunks = k + 1 and
the source sleeps sentChunks * chunkMs - (Date.now() - startTime) when
positive — so the elapsed time after k frames is the maximum of the actual
elapsed time and the deadline k * chunkMs computed from the play start
timestamp and the frame counter. -/
def paceElapsed (latency : Nat → Nat) (chunkMs : Nat) : Nat → Nat
  | 0 => 0
  | k + 1 => max (paceElapsed latency chunkMs k + latency k) ((k + 1) * chunkMs)

/-- JavaScript truthiness of a string-or-null value (null and the empty
string are falsy). -/
def jsTruthyStr : Option String → Bool
  | none => false
  | some s => s ≠ ""

/-- The per-call session record of the sessions map (line: sessions.set of
the source).  The ws and recognizeStream handles are external resources and
are not part of the state the claims are about. -/
structure Session where
  transcripts : List String := []
  closed : Bool := false
  acceptedFirstMedia : Bool := false
  streamSid : Option String := none
  callSid : Option String := none
  isPlaying : Bool := false
  outcome : Option OutcomeR := none
deriving DecidableEq, Repr

instance : Inhabited Session := ⟨{}⟩

/-- The value of getAIResponse: the reply text and the outcome computed by
analyzeOutcome on (transcript, reply). -/
structure AIResult where
  text : String
  outcome : OutcomeR
deriving DecidableEq, Repr

/-- Observable collaborator calls of a turn: the Gemini inference call, the
TTS synthesis call, and the sendMedia playback. -/
inductive TurnAction where
  | inference (transcript : String)
  | tts (text : String)
  | playback (aud : List Int)
deriving DecidableEq, Repr

/-- Number of playback actions in a trace. -/
def countPlay (l : List TurnAction) : Nat :=
  l.countP fun a => match a with
    | .playback _ => true
    | _ => false

/-- Number of inference calls in a trace. -/
def countInfer (l : List TurnAction) : Nat :=
  l.countP fun a => match a with
    | .inference _ => true
    | _ => false

/-- The synchronous prefix of the STT data handler for one transcript event
(the source's wss connection handler, STT data callback): a final
non-empty-after-trim transcript is pushed onto session.transcripts; then,
for a final result, if session.isPlaying the handler returns (the utterance
is recorded but not acted on), otherwise a non-empty transcript sets
isPlaying := true and starts the AI turn.  Returns the updated session and
whether a turn was started. -/
def sttArrival (sess : Session) (transcript : String) (isFinal : Bool) : Session × Bool :=
  let t := jsTrim transcript
  let sess1 :=
    if isFinal ∧ t ≠ "" then { sess with transcripts := sess.transcripts ++ [t] }
    else sess
  if isFinal then
    if sess1.isPlaying then (sess1, false)
    else if t ≠ "" then ({ sess1 with isPlaying := true }, true)
    else (sess1, false)
  else (sess1, false)

/-- The rest of a started AI turn (the try/catch/finally of the STT data
handler): the getAIResponse call (its failure is caught), the outcome store
when the result's outcome type is truthy, the synthesizeSpeech call (its
failure is caught), the sendMedia playback, and the finally block that
resets isPlaying := false on every exit path.  Collaborator results are the
parameters ai and tts; the returned list is the trace of collaborator calls
made. -/
def turnFinish (sess : Session) (transcript : String) (ai : Except Unit AIResult)
    (tts : Except Unit (List Int)) : Session × List TurnAction :=
  match ai with
  | .error _ => ({ sess with isPlaying := false }, [.inference transcript])
  | .ok r =>
    let sess1 :=
      if jsTruthyStr r.outcome.type then { sess with outcome := some r.outcome }
      else sess
    match tts with
    | .error _ => ({ sess1 with isPlaying := false }, [.inference transcript, .tts r.text])
    | .ok aud =>
      ({ sess1 with isPlaying := false }, [.inference transcript, .tts r.text, .playback aud])

/-- One complete STT final-transcript event processed to completion: the
synchronous arrival followed, when a turn was started, by the turn body. -/
def sttFinalStep (sess : Session) (transcript : String) (ai : Except Unit AIResult)
    (tts : Except Unit (List Int)) : Session × List TurnAction :=
  let a := sttArrival sess transcript true
  if a.snd then turnFinish a.fst transcript ai tts else (a.fst, [])

/-- The greeting text of the start-event handler. -/
def greetingText (leadName : String) : String :=
  "Hi " ++ leadName ++
  ", this is Alex calling from Alti. We help companies automate their outbound calling and booking processes. I" ++
  aposS ++
  "d love to schedule a quick 15-minute call with one of our senior account managers to show you how we can help. Does later this week work for you?"

/-- The greeting task launched by the start-event handler: sets
acceptedFirstMedia and isPlaying := true, synthesizes the greeting, plays
it, and resets isPlaying := false both on success and in the catch block. -/
def greetingTask (sess : Session) (leadName : String) (tts : Except Unit (List Int)) :
    Session × List TurnAction :=
  let sess1 := { sess with acceptedFirstMedia := true, isPlaying := true }
  match tts with
  | .ok aud =>
    ({ sess1 with isPlaying := false }, [.tts (greetingText leadName), .playback aud])
  | .error _ =>
    ({ sess1 with isPlaying := false }, [.tts (greetingText leadName)])

/-- The fixed apology phrase of the stop-event fallback. -/
def fallbackText : String :=
  "I" ++ aposS ++ "m sorry, I didn" ++ aposS ++ "t hear you. Can you repeat that?"

/-- The stop-event handler of the source for an existing session: when no
transcripts were recorded and the websocket is still open
(ws.readyState === 1), synthesize the fallback phrase and play it
(synthesis failure is caught); when the socket is already closed, skip the
fallback entirely; then end the recognize stream and delete the session
(the returned Bool). -/
def stopHandler (sess : Session) (wsOpen : Bool) (tts : Except Unit (List Int)) :
    List TurnAction × Bool :=
  if sess.transcripts.length > 0 then ([], true)
  else if wsOpen = false then ([], true)
  else
    match tts with
    | .ok aud => ([.tts fallbackText, .playback aud], true)
    | .error _ => ([.tts fallbackText], true)

/-- Helper: the chunking loop on the empty list is empty for any fuel. -/
theorem chunksGo_nil (n : Nat) (fuel : Nat) : chunksGo n fuel ([] : List α) = [] := by
  cases fuel <;> rfl

/-- Helper: with enough fuel, the number of chunks is the ceiling of length
over chunk size. -/
theorem chunksGo_length (n : Nat) :
    ∀ (fuel : Nat) (l : List α), l.length ≤ fuel →
      (chunksGo n fuel l).length = (l.length + n) / (n + 1) := by
  intro fuel
  induction fuel with
  | zero =>
    intro l hl
    have : l = [] := List.eq_nil_of_length_eq_zero (Nat.le_zero.mp hl)
    subst this
    simp [chunksGo, Nat.div_eq_of_lt (Nat.lt_succ_self n)]
  | succ fuel ih =>
    intro l hl
    match l with
    | [] => simp [chunksGo, Nat.div_eq_of_lt (Nat.lt_succ_self n)]
    | c :: cs =>
      have hl2 : cs.length + 1 ≤ fuel + 1 := by simpa using hl
      have hrec := ih ((c :: cs).drop (n + 1))
        (by simp only [List.length_drop, List.length_cons]; omega)
      simp only [chunksGo, List.length_cons, hrec, List.length_drop]
      rcases le_or_lt n cs.length with h | h
      · have h1 : cs.length + 1 - (n + 1) + n = cs.length := by omega
        have h2 : cs.length + 1 + n = cs.length + (n + 1) := by omega
        rw [h1, h2, Nat.add_div_right _ (Nat.succ_pos n)]
      · have h1 : cs.length + 1 - (n + 1) + n = n := by omega
        have h2 : cs.length + 1 + n = cs.length + (n + 1) := by omega
        rw [h1, h2, Nat.add_div_right _ (Nat.succ_pos n),
          Nat.div_eq_of_lt (Nat.lt_succ_self n),
          Nat.div_eq_of_lt (by omega : cs.length < n + 1)]

/-- Helper: the number of chunks is the ceiling of length over chunk size. -/
theorem chunks_length (n : Nat) (l : List α) :
    (chunks n l).length = (l.length + n) / (n + 1) :=
  chunksGo_length n l.length l (Nat.le_refl _)

/-- Helper: with enough fuel, every chunk except possibly the last is full. -/
theorem chunksGo_dropLast_length (n : Nat) :
    ∀ (fuel : Nat) (l : List α), l.length ≤ fuel →
      ∀ f ∈ (chunksGo n fuel l).dropLast, f.length = n + 1 := by
  intro fuel
  induction fuel with
  | zero =>
    intro l hl f hf
    simp [chunksGo] at hf
  | succ fuel ih =>
    intro l hl f hf
    match l with
    | [] => simp [chunksGo] at hf
    | c :: cs =>
      simp only [chunksGo] at hf
      rcases hdrop : chunksGo n fuel ((c :: cs).drop (n + 1)) with _ | ⟨g, gs⟩
      · rw [hdrop] at hf
        simp at hf
      · rw [hdrop] at hf
        have hne : (c :: cs).drop (n + 1) ≠ [] := by
          intro h0
          rw [h0, chunksGo_nil] at hdrop
          exact List.cons_ne_nil g gs hdrop.symm
        have hlen : n + 1 ≤ cs.length := by
          have := List.length_pos.mpr hne
          simp only [List.length_drop, List.length_cons] at this
          omega
        rcases (List.mem_cons).mp (by simpa using hf) with hf1 | hf2
        · subst hf1
          simp [List.length_take]
          omega
        · exact ih ((c :: cs).drop (n + 1))
            (by simp [List.length_drop] at hl ⊢; omega) f (by rw [hdrop]; exact hf2)

/-- Helper: every chunk except possibly the last is full. -/
theorem chunks_dropLast_length (n : Nat) (l : List α) :
    ∀ f ∈ (chunks n l).dropLast, f.length = n + 1 :=
  chunksGo_dropLast_length n l.length l (Nat.le_refl _)

/-- Helper: with an always-open sink the send loop sends every frame. -/
theorem sendLoop_all (ready : Nat → Bool) (h : ∀ i, ready i = true) :
    ∀ (fs : List (List Nat)) (k : Nat), sendLoop ready fs k = fs
  | [], _ => rfl
  | f :: fs, k => by simp [sendLoop, h k, sendLoop_all ready h fs (k + 1)]

/-- Claim C1, counterexample: the first stored outcome does not win.  A
session whose first completed classification stores the non-none outcome
scheduled/Tuesday 2 PM has that outcome replaced by a later classification
that returns hangup/Call ended: the STT data handler assigns
sess.outcome = aiResult.outcome without checking whether an outcome is
already set. -/
theorem outcome_first_wins_cex :
    (sttFinalStep {} ("works for me")
        (.ok ⟨("Great. HANGUP"), ⟨some ("scheduled"), some ("Tuesday 2 PM")⟩⟩)
        (.ok [])).fst.outcome = some ⟨some ("scheduled"), some ("Tuesday 2 PM")⟩ ∧
    (sttFinalStep
        (sttFinalStep {} ("works for me")
          (.ok ⟨("Great. HANGUP"), ⟨some ("scheduled"), some ("Tuesday 2 PM")⟩⟩)
          (.ok [])).fst
        ("bye")
        (.ok ⟨("Bye. HANGUP"), ⟨some ("hangup"), some ("Call ended")⟩⟩)
        (.ok [])).fst.outcome = some ⟨some ("hangup"), some ("Call ended")⟩ := by
  decide

/-- Claim C1, amended: the session keeps the most recent classification with
a truthy (non-none) kind — the last non-none classification wins — while a
classification whose kind is none leaves the stored outcome unchanged. -/
theorem outcome_last_wins (s : Session) (t : String) (r : AIResult) (aud : List Int)
    (hp : s.isPlaying = false) (ht : jsTrim t ≠ "") :
    (sttFinalStep s t (.ok r) (.ok aud)).fst.outcome =
      if jsTruthyStr r.outcome.type then some r.outcome else s.outcome := by
  by_cases hj : jsTruthyStr r.outcome.type <;>
    simp [sttFinalStep, sttArrival, hp, ht, turnFinish, hj]

/-- Claim C1, witness for the amended theorem at a concrete session and
classification. -/
theorem outcome_last_wins_witness :
    (sttFinalStep {} ("hi")
        (.ok ⟨("Bye. HANGUP"), ⟨some ("hangup"), some ("Call ended")⟩⟩)
        (.ok [])).fst.outcome =
      if jsTruthyStr (some ("hangup"))
      then some (⟨some ("hangup"), some ("Call ended")⟩ : OutcomeR)
      else ({} : Session).outcome :=
  outcome_last_wins {} ("hi") ⟨("Bye. HANGUP"), ⟨some ("hangup"), some ("Call ended")⟩⟩ []
    rfl (by decide)

/-- Claim C2 (code bug): decode does not invert encode to within one
quantization step.  Encoding the silence sample 0 yields byte 255, and
decoding that byte yields -100 — an error of 100 linear units where the
lowest mu-law segment's step is 8.  Encoding 1000 yields byte 206 and
decoding it back yields 147 — an error of 853 where that segment's step is
64: the decoder's formula omits the final x4 scaling that its own G.711
comment states. -/
theorem muLaw_roundTrip_bug_eval :
    linear16ToMuLawSample 0 = 255 ∧
    muLawTo16BitPCMSample (linear16ToMuLawSample 0) = -100 ∧
    linear16ToMuLawSample 1000 = 206 ∧
    muLawTo16BitPCMSample (linear16ToMuLawSample 1000) = 147 := by
  decide

/-- Claim C3 (code bug): with an open socket, a non-empty buffer and no
captured stream id, sendMedia still sends a media frame — it just omits the
streamSid field — although the claim (and the source's own comments) say no
frame may be sent while the stream id is unknown.  When a stream id is
known every sent frame does carry it. -/
theorem sendMedia_no_sid_sent_eval :
    sendMedia true (fun _ => true) none (some [0]) = [⟨none, [255]⟩] ∧
    sendMedia true (fun _ => true) (some ("MZ123")) (some [0]) = [⟨some ("MZ123"), [255]⟩] := by
  decide

/-- Claim C4: the four literal classifier scenarios of the specification,
computed by analyzeOutcome. -/
theorem classifier_scenarios :
    analyzeOutcome ("Tuesday at 2pm works") ("Great, see you then. HANGUP") =
      ⟨some ("scheduled"), some ("Tuesday 2 PM")⟩ ∧
    analyzeOutcome ("I" ++ aposS ++ "m not interested, stop calling")
        ("No problem, have a great day. HANGUP") =
      ⟨some ("irrelevant"), some ("Lead declined")⟩ ∧
    analyzeOutcome ("okay bye") ("Understood. HANGUP") =
      ⟨some ("hangup"), some ("Call ended")⟩ ∧
    analyzeOutcome ("maybe later") ("Sure, I" ++ aposS ++ "ll follow up.") =
      ⟨none, none⟩ := by
  decide

/-- Claim C5: at most one playback per session is in flight.  A first
finalized utterance starts a turn and sets isPlaying; a second finalized
utterance arriving while the first turn is still running is appended to the
transcript list but starts no turn; completing the pair yields exactly one
inference call and exactly one playback. -/
theorem exclusive_playback (s : Session) (t1 t2 : String) (r : AIResult) (aud : List Int)
    (hp : s.isPlaying = false) (h1 : jsTrim t1 ≠ "") (h2 : jsTrim t2 ≠ "") :
    (sttArrival s t1 true).snd = true ∧
    (sttArrival (sttArrival s t1 true).fst t2 true).snd = false ∧
    (turnFinish (sttArrival (sttArrival s t1 true).fst t2 true).fst t1
        (.ok r) (.ok aud)).fst.transcripts = s.transcripts ++ [jsTrim t1, jsTrim t2] ∧
    countPlay (turnFinish (sttArrival (sttArrival s t1 true).fst t2 true).fst t1
        (.ok r) (.ok aud)).snd = 1 ∧
    countInfer (turnFinish (sttArrival (sttArrival s t1 true).fst t2 true).fst t1
        (.ok r) (.ok aud)).snd = 1 := by
  by_cases hj : jsTruthyStr r.outcome.type <;>
    simp [sttArrival, hp, h1, h2, turnFinish, hj, countPlay, countInfer, List.countP_cons]

/-- Claim C5, witness at a concrete session and pair of utterances. -/
theorem exclusive_playback_witness :
    (sttArrival {} ("hello") true).snd = true ∧
    (sttArrival (sttArrival {} ("hello") true).fst ("sure") true).snd = false ∧
    (turnFinish (sttArrival (sttArrival {} ("hello") true).fst ("sure") true).fst ("hello")
        (.ok ⟨("ok"), ⟨none, none⟩⟩) (.ok [])).fst.transcripts =
      ({} : Session).transcripts ++ [jsTrim ("hello"), jsTrim ("sure")] ∧
    countPlay (turnFinish (sttArrival (sttArrival {} ("hello") true).fst ("sure") true).fst ("hello")
        (.ok ⟨("ok"), ⟨none, none⟩⟩) (.ok [])).snd = 1 ∧
    countInfer (turnFinish (sttArrival (sttArrival {} ("hello") true).fst ("sure") true).fst ("hello")
        (.ok ⟨("ok"), ⟨none, none⟩⟩) (.ok [])).snd = 1 :=
  exclusive_playback {} ("hello") ("sure") ⟨("ok"), ⟨none, none⟩⟩ []
    rfl (by decide) (by decide)

/-- Claim C6: the playbackActive flag (isPlaying) is false again after every
exit path of a turn that set it — inference failure, synthesis failure,
classifier with no outcome, or full success — and after every exit path of
the greeting task. -/
theorem playback_flag_reset (s : Session) (t : String) (ai : Except Unit AIResult)
    (tts gtts : Except Unit (List Int)) (g : Session) (lead : String)
    (_hstart : (sttArrival s t true).snd = true) :
    (turnFinish (sttArrival s t true).fst t ai tts).fst.isPlaying = false ∧
    (greetingTask g lead gtts).fst.isPlaying = false := by
  constructor
  · cases ai with
    | error e => rfl
    | ok r => cases tts with
      | error e => rfl
      | ok aud => rfl
  · cases gtts with
    | error e => rfl
    | ok aud => rfl

/-- Claim C6, witness at a concrete turn (inference failing) and greeting. -/
theorem playback_flag_reset_witness :
    (turnFinish (sttArrival {} ("hello") true).fst ("hello")
        (.error ()) (.error ())).fst.isPlaying = false ∧
    (greetingTask {} ("Bob") (.error ())).fst.isPlaying = false :=
  playback_flag_reset {} ("hello") (.error ()) (.error ()) (.error ()) {} ("Bob") (by decide)

/-- Claim C7: a stop event on a session with zero recorded transcripts
triggers exactly one fallback playback when the socket is still open, and
zero when it is closed; a session with at least one transcript triggers
none. -/
theorem silence_fallback_count (s : Session) (wsOpen : Bool) (aud : List Int) :
    countPlay (stopHandler s wsOpen (.ok aud)).fst =
      if s.transcripts = [] ∧ wsOpen = true then 1 else 0 := by
  rcases s with ⟨tr, c1, c2, c3, c4, c5, c6⟩
  cases wsOpen <;> cases tr <;>
    simp [stopHandler, countPlay, List.countP_cons]

/-- Claim C8: with the sink open throughout, sendMedia emits
ceiling(compressedLength / 160) frames, where compressedLength is the
length of the mu-law encoding (one byte per 16-bit sample), and every
frame except possibly the last carries exactly 160 compressed bytes. -/
theorem sendMedia_frame_sizing (ready : Nat → Bool) (sid : Option String)
    (samples : List Int) (hready : ∀ i, ready i = true) :
    (sendMedia true ready sid (some samples)).length = (samples.length + 159) / 160 ∧
    ∀ m ∈ (sendMedia true ready sid (some samples)).dropLast, m.payload.length = 160 := by
  by_cases h0 : samples.length = 0
  · constructor
    · simp [sendMedia, h0, Nat.div_eq_of_lt]
    · simp [sendMedia, h0]
  · constructor
    · simp only [sendMedia, if_neg h0, sendLoop_all ready hready, List.length_map]
      rw [chunks_length]
      simp
    · intro m hm
      simp only [sendMedia, if_neg h0, sendLoop_all ready hready] at hm
      rw [← List.map_dropLast] at hm
      rcases List.mem_map.mp hm with ⟨f, hf, hmf⟩
      rw [← hmf]
      exact chunks_dropLast_length 159 _ f hf

/-- Claim C8, witness: 161 silence samples compress to 161 bytes and are
sent as two frames. -/
theorem sendMedia_frame_sizing_witness :
    (sendMedia true (fun _ => true) none (some (List.replicate 161 0))).length = 2 := by
  have h := (sendMedia_frame_sizing (fun _ => true) none (List.replicate 161 0)
    (fun _ => rfl)).1
  rw [h]
  simp

/-- Claim C9: the pacer's sleep is computed from the play start timestamp
and the frame counter (deadline = startTime + frameIndex x chunkMs), so
per-frame sink latency does not accumulate: whenever every sink call takes
at most the 20 ms cadence, the total elapsed time for n frames is exactly
n x 20 ms, independent of n; drift never accumulates with the number of
frames. -/
theorem pacing_no_drift (latency : Nat → Nat) (n : Nat)
    (h : ∀ i, i < n → latency i ≤ 20) :
    paceElapsed latency 20 n = 20 * n := by
  induction n with
  | zero => rfl
  | succ k ih =>
    have hk : paceElapsed latency 20 k = 20 * k :=
      ih (fun i hi => h i (Nat.lt_succ_of_lt hi))
    have hl : latency k ≤ 20 := h k (Nat.lt_succ_self k)
    simp only [paceElapsed, hk]
    omega

/-- Claim C9, witness: three frames with 5 ms sink latency each take exactly
60 ms. -/
theorem pacing_no_drift_witness : paceElapsed (fun _ => 5) 20 3 = 20 * 3 :=
  pacing_no_drift (fun _ => 5) 3 (fun _ _ => by norm_num)

/-- Claim C10: sendMedia returns immediately, sending nothing, when the
sink is absent, the audio buffer is absent, or the audio buffer is empty
(the model is a total function, so no error is raised on these inputs). -/
theorem sendMedia_empty_guard (ready : Nat → Bool) (sid : Option String)
    (pcm : Option (List Int)) :
    sendMedia false ready sid pcm = [] ∧
    sendMedia true ready sid none = [] ∧
    sendMedia true ready sid (some []) = [] := by
  refine ⟨?_, ?_, ?_⟩ <;> simp [sendMedia]

end CallEngine
